import Mathlib

/-!
Verification development for the MOMS vital-records scraper (`src/scraper.py`).

The Python program is embedded shallowly:

* The browser/page is abstracted into environments (`SearchEnv`, `ProfileEnv`)
  that answer the page queries the scraper performs (body text of a result
  page for a given set of search filters, the `href` attributes of the
  certificate links on that page, navigation outcomes, element texts).
* The mutable object state (`self.profile_urls`, `self.results`) becomes
  explicit state threaded through the loops.  The Python `set` is modelled as
  an insertion-ordered duplicate-free list (`insert_url` skips elements that
  are already present, mirroring set insertion).
* Each `perform_search` invocation is additionally recorded in a ghost
  `trace` field (one entry per search query issued), and each attempted
  profile navigation in a ghost `visited` field, so that theorems can speak
  about the sequence of queries issued and references visited.
* Fallible awaited calls return `Except PwError`; Python's
  `playwright TimeoutError` is `PwError.timeout`, every other raised
  exception is `PwError.other`.
-/

/-- `BASE_URL = "https://moms.mn.gov/"` from the configuration section. -/
def BASE_URL : String := "https://moms.mn.gov/"

/-- The 50-entry `STATES` configuration list from `scraper.py`. -/
def STATES : List String :=
  ["AL", "AK", "AZ", "AR", "CA", "CO", "CT", "DE", "FL", "GA",
   "HI", "ID", "IL", "IN", "IA", "KS", "KY", "LA", "ME", "MD",
   "MA", "MI", "MN", "MS", "MO", "MT", "NE", "NV", "NH", "NJ",
   "NM", "NY", "NC", "ND", "OH", "OK", "OR", "PA", "RI", "SC",
   "SD", "TN", "TX", "UT", "VT", "VA", "WA", "WV", "WI", "WY"]

/-- `ALPHABETS = list(string.ascii_uppercase)`: the 26 one-letter strings. -/
def ALPHABETS : List String :=
  ["A", "B", "C", "D", "E", "F", "G", "H", "I", "J", "K", "L", "M",
   "N", "O", "P", "Q", "R", "S", "T", "U", "V", "W", "X", "Y", "Z"]

/-- Module-level configuration of the scraper.  The source declares the
`STATES` list at module scope; we gather the declared configuration into a
structure so that theorems can compare runs that differ only in it. -/
structure ScraperConfig where
  states : List String

def default_config : ScraperConfig := ⟨STATES⟩

/-- The keyword-argument dictionary passed to `perform_search` /
`fill_search_form`: any subset of the keys `fname`, `lname`, `mname`. -/
structure Filters where
  fname : Option String
  lname : Option String
  mname : Option String
deriving DecidableEq

/-- The depth-1 query `perform_search(page, fname=a)`. -/
def F1 (a : String) : Filters := ⟨some a, none, none⟩

/-- The depth-2 query `perform_search(page, fname=a, lname=b)`. -/
def F2 (a b : String) : Filters := ⟨some a, some b, none⟩

/-- The depth-3 query `perform_search(page, fname=a, lname=b, mname=c)`. -/
def F3 (a b c : String) : Filters := ⟨some a, some b, some c⟩

/-- Exceptions raised by awaited playwright calls: `TimeoutError` is handled
separately by the scraper, everything else is some other raised exception. -/
inductive PwError where
  | timeout
  | other (msg : String)
deriving DecidableEq

/-- The search-side browser environment: for every submitted query (the page
state after `fill_search_form` and the fixed wait), it determines the result
of `page.inner_text("body")` and the `href` attributes of the
`a[href*=Certificate]` links (`none` models `get_attribute` returning
`None`). -/
structure SearchEnv where
  body_text : Filters → Except PwError String
  hrefs : Filters → List (Option String)

/-- `ds.foldl`-style accumulation of a decimal digit run, i.e.
`int(match.group(1))`. -/
def digits_to_nat (ds : List Char) : Nat :=
  ds.foldl (fun n c => 10 * n + (c.toNat - 48)) 0

/-- Case-insensitive comparison of a (lowercase) pattern against the start of
a text, modelling the `re.IGNORECASE` literal part of the pattern. -/
def ci_matches : List Char → List Char → Bool
  | [], _ => true
  | _ :: _, [] => false
  | p :: ps, c :: cs => (c.toLower == p) && ci_matches ps cs

/-- One attempted match of `(\d+) results?` (ignore-case) at the start of
`cs`: a maximal digit run, a single space, then `result` (the trailing `s` is
optional in the pattern, so only the prefix `result` is required). -/
def count_match_at (cs : List Char) : Option Nat :=
  match cs.takeWhile Char.isDigit with
  | [] => none
  | ds =>
    match cs.drop ds.length with
    | ' ' :: rest =>
      if ci_matches "result".data rest then some (digits_to_nat ds) else none
    | _ => none

/-- `re.search` semantics for the pattern above: try each start position from
the left, returning the first (leftmost) match.  Backtracking inside `\d+`
can never produce a match that the maximal run misses, because a shortened
digit run is followed by a digit, not the required space. -/
def scan_count : List Char → Option Nat
  | [] => none
  | c :: cs =>
    match count_match_at (c :: cs) with
    | some n => some n
    | none => scan_count cs

/-- `re.search(r'(\d+) results?', text, re.IGNORECASE)` followed by
`int(match.group(1))`, as a partial function on the page text. -/
def find_count (s : String) : Option Nat := scan_count s.data

/-- `MomsScraper.get_result_count`: read the body text and parse the result
count; on no match return `0`, and on any exception while reading return `0`
(the bare `except` around the whole body). -/
def get_result_count (env : SearchEnv) (f : Filters) : Nat :=
  match env.body_text f with
  | .error _ => 0
  | .ok text =>
    match find_count text with
    | some n => n
    | none => 0

/-- Python's `s.startswith(pre)` as a character-list prefix test. -/
def py_startswith (pre s : String) : Bool := List.isPrefixOf pre.data s.data

/-- Normalization of one link's `href` value inside
`MomsScraper.extract_profile_urls`: skip falsy values (`None` or the empty
string), prepend `BASE_URL` unless the value starts with `http`. -/
def normalize_href : Option String → List String
  | none => []
  | some h =>
    if h = "" then []
    else if py_startswith "http" h then [h] else [BASE_URL ++ h]

/-- `MomsScraper.extract_profile_urls`: collect the normalized hrefs of the
certificate links on the current result page, in page order. -/
def extract_profile_urls (env : SearchEnv) (f : Filters) : List String :=
  (env.hrefs f).foldr (fun l urls => normalize_href l ++ urls) []

/-- Insertion into the `self.profile_urls` set: adding an element that is
already present changes nothing. -/
def insert_url (s : List String) (u : String) : List String :=
  if u ∈ s then s else s ++ [u]

/-- `self.profile_urls.update(urls)`: insert each discovered url in turn. -/
def update_urls (s : List String) (us : List String) : List String :=
  us.foldl insert_url s

/-- The mutable state of the search phase: the set `self.profile_urls`
(as an insertion-ordered duplicate-free list) together with a ghost `trace`
recording every query passed to `perform_search`. -/
structure ScrapeState where
  trace : List Filters
  profile_urls : List String
deriving DecidableEq

/-- `MomsScraper.perform_search`: submit the search, read the result count,
and if it is at most 30 collect the profile urls of the result page into
`self.profile_urls`.  Returns the count together with the updated state. -/
def perform_search (env : SearchEnv) (st : ScrapeState) (f : Filters) :
    Nat × ScrapeState :=
  if get_result_count env f ≤ 30 then
    (get_result_count env f,
      { trace := st.trace ++ [f],
        profile_urls := update_urls st.profile_urls (extract_profile_urls env f) })
  else
    (get_result_count env f,
      { trace := st.trace ++ [f], profile_urls := st.profile_urls })

/-- The innermost `for mname in ALPHABETS` loop of `search_phase` (the
returned count of a depth-3 query is not inspected further). -/
def mname_loop (env : SearchEnv) (fn ln : String) :
    List String → ScrapeState → ScrapeState
  | [], st => st
  | mn :: rest, st =>
    mname_loop env fn ln rest (perform_search env st (F3 fn ln mn)).2

/-- The middle `for lname in ALPHABETS` loop of `search_phase`: descend into
the `mname` loop exactly when the depth-2 count exceeds 30. -/
def lname_loop (env : SearchEnv) (fn : String) :
    List String → ScrapeState → ScrapeState
  | [], st => st
  | ln :: rest, st =>
    let r := perform_search env st (F2 fn ln)
    lname_loop env fn rest
      (if 30 < r.1 then mname_loop env fn ln ALPHABETS r.2 else r.2)

/-- The outer `for fname in ALPHABETS` loop of `search_phase`: descend into
the `lname` loop exactly when the depth-1 count exceeds 30. -/
def fname_loop (env : SearchEnv) :
    List String → ScrapeState → ScrapeState
  | [], st => st
  | fn :: rest, st =>
    let r := perform_search env st (F1 fn)
    fname_loop env rest
      (if 30 < r.1 then lname_loop env fn ALPHABETS r.2 else r.2)

/-- `MomsScraper.search_phase`, run from the freshly initialized scraper
state.  The configuration is passed in (the body never consults it, exactly
as the source never reads `STATES`). -/
def search_phase (_cfg : ScraperConfig) (env : SearchEnv) : ScrapeState :=
  fname_loop env ALPHABETS ⟨[], []⟩

/-- One browser interaction of `fill_search_form`.  Selectors are recorded by
the element id; the source wraps each id in a CSS attribute selector. -/
inductive FormAction where
  | wait_for_selector (sel : String)
  | fill (sel value : String)
  | click (sel : String)
deriving DecidableEq

/-- `MomsScraper.fill_search_form`: wait for the form, fill exactly the
filter fields present in the kwargs, set the fixed wide date range, click
search.  The configuration is passed in (never consulted, as in the
source). -/
def fill_search_form (_cfg : ScraperConfig) (filters : Filters) :
    List FormAction :=
  [.wait_for_selector "ctl00_ContentPlaceHolder1_txtLastName"]
  ++ (match filters.fname with
      | some v => [.fill "ctl00_ContentPlaceHolder1_txtFirstName" v]
      | none => [])
  ++ (match filters.lname with
      | some v => [.fill "ctl00_ContentPlaceHolder1_txtLastName" v]
      | none => [])
  ++ (match filters.mname with
      | some v => [.fill "ctl00_ContentPlaceHolder1_txtMiddleName" v]
      | none => [])
  ++ [.fill "ctl00_ContentPlaceHolder1_txtDateFrom" "01/01/1900",
      .fill "ctl00_ContentPlaceHolder1_txtDateTo" "12/31/2026",
      .click "ctl00_ContentPlaceHolder1_btnSearch"]

/-! ### Derived descriptions of the issued query sequence

The following definitions are not part of the embedding; they are closed
formulas for the ghost trace of `search_phase`, proved equal to it below and
used to state and prove the claims. -/

/-- The queries issued while handling one `fname = fn` branch at depths 2-3,
for a given remaining list `ls` of last-name letters. -/
def l_trace (env : SearchEnv) (fn : String) (ls : List String) : List Filters :=
  ls.flatMap fun ln =>
    F2 fn ln ::
      (if 30 < get_result_count env (F2 fn ln) then ALPHABETS.map (F3 fn ln) else [])

/-- The full query sequence of the enumerator for a remaining list `fs` of
first-name letters. -/
def f_trace (env : SearchEnv) (fs : List String) : List Filters :=
  fs.flatMap fun fn =>
    F1 fn ::
      (if 30 < get_result_count env (F1 fn) then l_trace env fn ALPHABETS else [])

/-- `x` is `none` or equal to `y`: field-wise comparison used to define query
refinement. -/
def FieldLe (x y : Option String) : Prop := x = none ∨ x = y

/-- `g` is a (strictly) more refined query than `f`: it agrees with `f` on
every filter `f` sets and differs from `f` (i.e. sets strictly more). -/
def Refines (g f : Filters) : Prop :=
  FieldLe f.fname g.fname ∧ FieldLe f.lname g.lname ∧ FieldLe f.mname g.mname ∧ g ≠ f

/-- `g` is a child of `p` at the next refinement level: it fixes the same
letters as `p` and additionally sets exactly the next name slot. -/
def is_child (p g : Filters) : Bool :=
  match p.lname with
  | none => g.fname == p.fname && g.lname.isSome && g.mname == none
  | some b => g.fname == p.fname && g.lname == some b && g.mname.isSome

/-- The child of `p` obtained by putting the letter `σ` in the next name
slot. -/
def next_child (p : Filters) (σ : String) : Filters :=
  match p.lname with
  | none => ⟨p.fname, some σ, none⟩
  | some b => ⟨p.fname, some b, some σ⟩

/-! ### Profile phase -/

/-- The profile-side browser environment: outcome of `page.goto url`
(`none` = success), result of awaiting `page.inner_text(selector)` on the
page reached from `url`, and the value of `page.url` there. -/
structure ProfileEnv where
  goto : String → Option PwError
  inner_text : String → String → Except PwError String
  page_url : String → String

/-- The helper `safe_text` of `scrape_profile`.  In the source the
`try/except` wraps only the *creation* of the `page.inner_text(selector)`
coroutine — `inner_text` is an async function and is not awaited inside the
`try` — so the `except: return ""` branch is unreachable and any exception
surfaces at the caller's `await safe_text(...)`.  The embedding therefore
simply propagates the awaited result. -/
def safe_text (env : ProfileEnv) (url sel : String) : Except PwError String :=
  env.inner_text url sel

/-- A scraped record: Python dict modelled as an insertion-ordered
association list. -/
abbrev PyRecord := List (String × String)

/-- The fixed key sequence of the dict literal in `scrape_profile`. -/
def record_keys : List String :=
  ["Applicant 1", "Applicant 2", "Certificate Number", "Date Filed",
   "County", "Profile URL"]

/-- `MomsScraper.scrape_profile`: await the six field reads in order and
build the record dict.  A failing awaited read aborts the whole record (see
`safe_text`). -/
def scrape_profile (env : ProfileEnv) (url : String) :
    Except PwError PyRecord :=
  match safe_text env url "#applicant1" with
  | .error e => .error e
  | .ok a1 =>
    match safe_text env url "#applicant2" with
    | .error e => .error e
    | .ok a2 =>
      match safe_text env url "#certificate" with
      | .error e => .error e
      | .ok cert =>
        match safe_text env url "#dateFiled" with
        | .error e => .error e
        | .ok filed =>
          match safe_text env url "#county" with
          | .error e => .error e
          | .ok county =>
            .ok [("Applicant 1", a1), ("Applicant 2", a2),
                 ("Certificate Number", cert), ("Date Filed", filed),
                 ("County", county), ("Profile URL", env.page_url url)]

/-- The mutable state of the profile phase: `self.results` plus a ghost
`visited` list recording every reference whose navigation was attempted. -/
structure ProfileState where
  visited : List String
  results : List PyRecord
deriving DecidableEq

/-- One iteration of the `for url in self.profile_urls` loop: attempt the
navigation and the scrape inside `try ... except TimeoutError`; a
`TimeoutError` (from `goto` or from an awaited field read) is logged and the
loop continues, any other exception propagates out of the phase. -/
def profile_step (env : ProfileEnv) (st : ProfileState) (url : String) :
    Except PwError ProfileState :=
  let st' : ProfileState := { st with visited := st.visited ++ [url] }
  match env.goto url with
  | some .timeout => .ok st'
  | some (.other e) => .error (.other e)
  | none =>
    match scrape_profile env url with
    | .ok data => .ok { st' with results := st'.results ++ [data] }
    | .error .timeout => .ok st'
    | .error e => .error e

/-- The loop of `profile_phase` over the collected references. -/
def profile_loop (env : ProfileEnv) :
    List String → ProfileState → Except PwError ProfileState
  | [], st => .ok st
  | url :: rest, st =>
    match profile_step env st url with
    | .ok st' => profile_loop env rest st'
    | .error e => .error e

/-- `MomsScraper.profile_phase`, run from the empty result list, over the
given enumeration of `self.profile_urls`. -/
def profile_phase (env : ProfileEnv) (urls : List String) :
    Except PwError ProfileState :=
  profile_loop env urls ⟨[], []⟩

/-! ### Output phase -/

/-- `d.keys()` of a record dict, in insertion order. -/
def dict_keys (d : PyRecord) : List String := d.map Prod.fst

/-- `d.get(k)`: the value stored at `k`, if any. -/
def py_get (d : PyRecord) (k : String) : Option String :=
  (d.find? (fun kv => kv.1 == k)).map Prod.snd

/-- `csv.DictWriter` row conversion: with the default
`extrasaction="raise"`, a key of the row dict outside the field names raises
`ValueError`; field names missing from the dict are written as the restval
(`None`, serialized as the empty field). -/
def dict_to_row (fieldnames : List String) (d : PyRecord) :
    Except String (List String) :=
  if d.any (fun kv => !(fieldnames.contains kv.1)) then .error "ValueError"
  else .ok (fieldnames.map fun k => (py_get d k).getD "")

/-- `writer.writerows`: convert the records one after the other, stopping at
the first failing row. -/
def write_rows (fieldnames : List String) :
    List PyRecord → Except String (List (List String))
  | [] => .ok []
  | d :: rest =>
    match dict_to_row fieldnames d with
    | .error e => .error e
    | .ok row =>
      match write_rows fieldnames rest with
      | .error e => .error e
      | .ok rows => .ok (row :: rows)

/-- `MomsScraper.save_csv`: on an empty record list log a warning and return
without writing (`.ok none`); otherwise write a header row taken from the
keys of the first record followed by one row per record. -/
def save_csv (results : List PyRecord) :
    Except String (Option (List (List String))) :=
  match results with
  | [] => .ok none
  | first :: _ =>
    match write_rows (dict_keys first) results with
    | .error e => .error e
    | .ok rows => .ok (some (dict_keys first :: rows))

/-! ### Concrete environments used by witnesses and counterexamples -/

/-- A search environment in which `fname=A`, `fname=A,lname=A` and
`fname=A,lname=A,mname=A` report 31 results, every other query reports none,
and only the page of the depth-3 query `A,A,A` carries a certificate link. -/
def envDeep : SearchEnv :=
  { body_text := fun f =>
      .ok (if f = F1 "A" ∨ f = F2 "A" "A" ∨ f = F3 "A" "A" "A"
           then "31 results" else "")
    hrefs := fun f =>
      if f = F3 "A" "A" "A" then [some "/Certificate/99"] else [] }

/-- A search environment in which every query reports no parsable count and
every result page carries the same certificate link. -/
def envFlat : SearchEnv :=
  { body_text := fun _ => .ok ""
    hrefs := fun _ => [some "/Certificate/12345"] }

/-- A search environment realizing the spec scenario: `fname=A` returns 45
results, everything else returns none. -/
def envFan : SearchEnv :=
  { body_text := fun f => .ok (if f = F1 "A" then "45 results" else "")
    hrefs := fun _ => [] }

/-- A profile environment where every navigation and field read succeeds. -/
def penvOk : ProfileEnv :=
  { goto := fun _ => none
    inner_text := fun _ _ => .ok "x"
    page_url := fun u => u }

/-- A profile environment where navigating to `"t"` times out and everything
else succeeds. -/
def penvTimeout : ProfileEnv :=
  { goto := fun u => if u = "t" then some .timeout else none
    inner_text := fun _ _ => .ok "x"
    page_url := fun u => u }

/-- A profile environment where awaiting the `#applicant1` read raises
`TimeoutError` and everything else succeeds. -/
def penvFieldTimeout : ProfileEnv :=
  { goto := fun _ => none
    inner_text := fun _ sel =>
      if sel = "#applicant1" then .error .timeout else .ok "x"
    page_url := fun u => u }

/-- A profile environment where awaiting the `#applicant1` read raises a
non-timeout exception and everything else succeeds. -/
def penvFieldError : ProfileEnv :=
  { goto := fun _ => none
    inner_text := fun _ sel =>
      if sel = "#applicant1" then .error (.other "element not found") else .ok "x"
    page_url := fun u => u }

/-! ## Lemmas: the profile-url set -/

lemma mem_insert_url {s : List String} {v u : String} :
    u ∈ insert_url s v ↔ u ∈ s ∨ u = v := by
  by_cases h : v ∈ s
  · simp only [insert_url, if_pos h]
    constructor
    · exact Or.inl
    · rintro (hu | rfl)
      · exact hu
      · exact h
  · simp [insert_url, if_neg h]

lemma insert_url_nodup {s : List String} (h : s.Nodup) (v : String) :
    (insert_url s v).Nodup := by
  by_cases hv : v ∈ s
  · simpa [insert_url, hv] using h
  · simp [insert_url, hv, List.nodup_append, h]

lemma mem_update_urls {s us : List String} {u : String} :
    u ∈ update_urls s us ↔ u ∈ s ∨ u ∈ us := by
  induction us generalizing s with
  | nil => simp [update_urls]
  | cons v rest ih =>
    have : update_urls s (v :: rest) = update_urls (insert_url s v) rest := rfl
    rw [this, ih, mem_insert_url]
    simp only [List.mem_cons]
    tauto

lemma update_urls_nodup {s : List String} (h : s.Nodup) (us : List String) :
    (update_urls s us).Nodup := by
  induction us generalizing s with
  | nil => simpa [update_urls]
  | cons v rest ih => exact ih (insert_url_nodup h v)

/-! ## Lemmas: one `perform_search` call -/

lemma perform_search_fst (env : SearchEnv) (st : ScrapeState) (f : Filters) :
    (perform_search env st f).1 = get_result_count env f := by
  unfold perform_search
  split <;> rfl

lemma perform_search_trace (env : SearchEnv) (st : ScrapeState) (f : Filters) :
    ((perform_search env st f).2).trace = st.trace ++ [f] := by
  unfold perform_search
  split <;> rfl

lemma perform_search_urls (env : SearchEnv) (st : ScrapeState) (f : Filters)
    (u : String) :
    u ∈ ((perform_search env st f).2).profile_urls ↔
      u ∈ st.profile_urls ∨
        (get_result_count env f ≤ 30 ∧ u ∈ extract_profile_urls env f) := by
  by_cases h : get_result_count env f ≤ 30
  · simp [perform_search, if_pos h, mem_update_urls, h]
  · simp [perform_search, if_neg h, h]

lemma perform_search_nodup (env : SearchEnv) (st : ScrapeState) (f : Filters)
    (h : st.profile_urls.Nodup) :
    ((perform_search env st f).2).profile_urls.Nodup := by
  by_cases hc : get_result_count env f ≤ 30
  · simpa [perform_search, hc] using update_urls_nodup h (extract_profile_urls env f)
  · simpa [perform_search, hc] using h

/-! ## Lemmas: the ghost trace of the enumeration loops -/

lemma mname_loop_trace (env : SearchEnv) (fn ln : String) (ms : List String)
    (st : ScrapeState) :
    (mname_loop env fn ln ms st).trace = st.trace ++ ms.map (F3 fn ln) := by
  induction ms generalizing st with
  | nil => simp [mname_loop]
  | cons mn rest ih => simp [mname_loop, ih, perform_search_trace]

lemma lname_loop_trace (env : SearchEnv) (fn : String) (ls : List String)
    (st : ScrapeState) :
    (lname_loop env fn ls st).trace = st.trace ++ l_trace env fn ls := by
  induction ls generalizing st with
  | nil => simp [lname_loop, l_trace]
  | cons ln rest ih =>
    simp only [lname_loop, perform_search_fst]
    by_cases h : 30 < get_result_count env (F2 fn ln)
    · simp only [if_pos h, ih, mname_loop_trace, perform_search_trace,
        l_trace, List.flatMap_cons, if_pos h]
      simp [List.append_assoc]
    · simp only [if_neg h, ih, perform_search_trace,
        l_trace, List.flatMap_cons, if_neg h]
      simp [List.append_assoc]

lemma fname_loop_trace (env : SearchEnv) (fs : List String)
    (st : ScrapeState) :
    (fname_loop env fs st).trace = st.trace ++ f_trace env fs := by
  induction fs generalizing st with
  | nil => simp [fname_loop, f_trace]
  | cons fn rest ih =>
    simp only [fname_loop, perform_search_fst]
    by_cases h : 30 < get_result_count env (F1 fn)
    · simp only [if_pos h, ih, lname_loop_trace, perform_search_trace,
        f_trace, List.flatMap_cons, if_pos h]
      simp [List.append_assoc]
    · simp only [if_neg h, ih, perform_search_trace,
        f_trace, List.flatMap_cons, if_neg h]
      simp [List.append_assoc]

lemma search_phase_trace (cfg : ScraperConfig) (env : SearchEnv) :
    (search_phase cfg env).trace = f_trace env ALPHABETS := by
  simp [search_phase, fname_loop_trace]

/-! ## Lemmas: contents of the collected url set -/

lemma mname_loop_urls (env : SearchEnv) (fn ln : String) (ms : List String)
    (st : ScrapeState) (u : String) :
    u ∈ (mname_loop env fn ln ms st).profile_urls ↔
      u ∈ st.profile_urls ∨
        ∃ f ∈ ms.map (F3 fn ln), get_result_count env f ≤ 30 ∧
          u ∈ extract_profile_urls env f := by
  induction ms generalizing st with
  | nil => simp [mname_loop]
  | cons mn rest ih =>
    simp only [mname_loop, ih, perform_search_urls, List.map_cons, List.mem_cons]
    constructor
    · rintro ((hst | hcol) | ⟨f, hf, hp⟩)
      · exact Or.inl hst
      · exact Or.inr ⟨F3 fn ln mn, Or.inl rfl, hcol⟩
      · exact Or.inr ⟨f, Or.inr hf, hp⟩
    · rintro (hst | ⟨f, (rfl | hf), hp⟩)
      · exact Or.inl (Or.inl hst)
      · exact Or.inl (Or.inr hp)
      · exact Or.inr ⟨f, hf, hp⟩

lemma lname_loop_urls (env : SearchEnv) (fn : String) (ls : List String)
    (st : ScrapeState) (u : String) :
    u ∈ (lname_loop env fn ls st).profile_urls ↔
      u ∈ st.profile_urls ∨
        ∃ f ∈ l_trace env fn ls, get_result_count env f ≤ 30 ∧
          u ∈ extract_profile_urls env f := by
  induction ls generalizing st with
  | nil => simp [lname_loop, l_trace]
  | cons ln rest ih =>
    simp only [lname_loop, perform_search_fst]
    by_cases h : 30 < get_result_count env (F2 fn ln)
    · simp only [if_pos h, ih, mname_loop_urls, perform_search_urls,
        l_trace, List.flatMap_cons, if_pos h, List.mem_append, List.mem_cons]
      constructor
      · rintro (((hst | hcol) | ⟨f, hf, hp⟩) | ⟨f, hf, hp⟩)
        · exact Or.inl hst
        · exact Or.inr ⟨F2 fn ln, Or.inl (Or.inl rfl), hcol⟩
        · exact Or.inr ⟨f, Or.inl (Or.inr hf), hp⟩
        · exact Or.inr ⟨f, Or.inr hf, hp⟩
      · rintro (hst | ⟨f, (rfl | hf) | hf, hp⟩)
        · exact Or.inl (Or.inl (Or.inl hst))
        · exact Or.inl (Or.inl (Or.inr hp))
        · exact Or.inl (Or.inr ⟨f, hf, hp⟩)
        · exact Or.inr ⟨f, hf, hp⟩
    · simp only [if_neg h, ih, perform_search_urls,
        l_trace, List.flatMap_cons, if_neg h, List.mem_append,
        List.mem_singleton]
      constructor
      · rintro ((hst | hcol) | ⟨f, hf, hp⟩)
        · exact Or.inl hst
        · exact Or.inr ⟨F2 fn ln, Or.inl rfl, hcol⟩
        · exact Or.inr ⟨f, Or.inr hf, hp⟩
      · rintro (hst | ⟨f, (rfl | hf), hp⟩)
        · exact Or.inl (Or.inl hst)
        · exact Or.inl (Or.inr hp)
        · exact Or.inr ⟨f, hf, hp⟩

lemma fname_loop_urls (env : SearchEnv) (fs : List String)
    (st : ScrapeState) (u : String) :
    u ∈ (fname_loop env fs st).profile_urls ↔
      u ∈ st.profile_urls ∨
        ∃ f ∈ f_trace env fs, get_result_count env f ≤ 30 ∧
          u ∈ extract_profile_urls env f := by
  induction fs generalizing st with
  | nil => simp [fname_loop, f_trace]
  | cons fn rest ih =>
    simp only [fname_loop, perform_search_fst]
    by_cases h : 30 < get_result_count env (F1 fn)
    · simp only [if_pos h, ih, lname_loop_urls, perform_search_urls,
        f_trace, List.flatMap_cons, if_pos h, List.mem_append, List.mem_cons]
      constructor
      · rintro (((hst | hcol) | ⟨f, hf, hp⟩) | ⟨f, hf, hp⟩)
        · exact Or.inl hst
        · exact Or.inr ⟨F1 fn, Or.inl (Or.inl rfl), hcol⟩
        · exact Or.inr ⟨f, Or.inl (Or.inr hf), hp⟩
        · exact Or.inr ⟨f, Or.inr hf, hp⟩
      · rintro (hst | ⟨f, (rfl | hf) | hf, hp⟩)
        · exact Or.inl (Or.inl (Or.inl hst))
        · exact Or.inl (Or.inl (Or.inr hp))
        · exact Or.inl (Or.inr ⟨f, hf, hp⟩)
        · exact Or.inr ⟨f, hf, hp⟩
    · simp only [if_neg h, ih, perform_search_urls,
        f_trace, List.flatMap_cons, if_neg h, List.mem_append,
        List.mem_singleton]
      constructor
      · rintro ((hst | hcol) | ⟨f, hf, hp⟩)
        · exact Or.inl hst
        · exact Or.inr ⟨F1 fn, Or.inl rfl, hcol⟩
        · exact Or.inr ⟨f, Or.inr hf, hp⟩
      · rintro (hst | ⟨f, (rfl | hf), hp⟩)
        · exact Or.inl (Or.inl hst)
        · exact Or.inl (Or.inr hp)
        · exact Or.inr ⟨f, hf, hp⟩

lemma search_phase_urls (cfg : ScraperConfig) (env : SearchEnv) (u : String) :
    u ∈ (search_phase cfg env).profile_urls ↔
      ∃ f ∈ (search_phase cfg env).trace, get_result_count env f ≤ 30 ∧
        u ∈ extract_profile_urls env f := by
  rw [search_phase_trace]
  simp [search_phase, fname_loop_urls]

lemma mname_loop_nodup (env : SearchEnv) (fn ln : String) (ms : List String)
    (st : ScrapeState) (h : st.profile_urls.Nodup) :
    (mname_loop env fn ln ms st).profile_urls.Nodup := by
  induction ms generalizing st with
  | nil => simpa [mname_loop]
  | cons mn rest ih => exact ih _ (perform_search_nodup env st _ h)

lemma lname_loop_nodup (env : SearchEnv) (fn : String) (ls : List String)
    (st : ScrapeState) (h : st.profile_urls.Nodup) :
    (lname_loop env fn ls st).profile_urls.Nodup := by
  induction ls generalizing st with
  | nil => simpa [lname_loop]
  | cons ln rest ih =>
    simp only [lname_loop]
    by_cases hc : 30 < (perform_search env st (F2 fn ln)).1
    · simp only [if_pos hc]
      exact ih _ (mname_loop_nodup env fn ln ALPHABETS _
        (perform_search_nodup env st _ h))
    · simp only [if_neg hc]
      exact ih _ (perform_search_nodup env st _ h)

lemma fname_loop_nodup (env : SearchEnv) (fs : List String)
    (st : ScrapeState) (h : st.profile_urls.Nodup) :
    (fname_loop env fs st).profile_urls.Nodup := by
  induction fs generalizing st with
  | nil => simpa [fname_loop]
  | cons fn rest ih =>
    simp only [fname_loop]
    by_cases hc : 30 < (perform_search env st (F1 fn)).1
    · simp only [if_pos hc]
      exact ih _ (lname_loop_nodup env fn ALPHABETS _
        (perform_search_nodup env st _ h))
    · simp only [if_neg hc]
      exact ih _ (perform_search_nodup env st _ h)

lemma search_phase_nodup (cfg : ScraperConfig) (env : SearchEnv) :
    (search_phase cfg env).profile_urls.Nodup :=
  fname_loop_nodup env ALPHABETS _ List.nodup_nil

/-! ## Lemmas: which queries appear in the trace -/

lemma mem_l_trace {env : SearchEnv} {fn : String} {g : Filters}
    {ls : List String} :
    g ∈ l_trace env fn ls ↔
      ∃ ln ∈ ls, g = F2 fn ln ∨
        (30 < get_result_count env (F2 fn ln) ∧
          ∃ mn ∈ ALPHABETS, g = F3 fn ln mn) := by
  simp only [l_trace, List.mem_flatMap, List.mem_cons]
  constructor
  · rintro ⟨ln, hln, (rfl | hg)⟩
    · exact ⟨ln, hln, Or.inl rfl⟩
    · by_cases h : 30 < get_result_count env (F2 fn ln)
      · rw [if_pos h] at hg
        rcases List.mem_map.mp hg with ⟨mn, hmn, rfl⟩
        exact ⟨ln, hln, Or.inr ⟨h, mn, hmn, rfl⟩⟩
      · rw [if_neg h] at hg
        cases hg
  · rintro ⟨ln, hln, (rfl | ⟨h, mn, hmn, rfl⟩)⟩
    · exact ⟨ln, hln, Or.inl rfl⟩
    · refine ⟨ln, hln, Or.inr ?_⟩
      rw [if_pos h]
      exact List.mem_map_of_mem _ hmn

lemma mem_f_trace {env : SearchEnv} {g : Filters} {fs : List String} :
    g ∈ f_trace env fs ↔
      ∃ fn ∈ fs, g = F1 fn ∨
        (30 < get_result_count env (F1 fn) ∧ g ∈ l_trace env fn ALPHABETS) := by
  simp only [f_trace, List.mem_flatMap, List.mem_cons]
  constructor
  · rintro ⟨fn, hfn, (rfl | hg)⟩
    · exact ⟨fn, hfn, Or.inl rfl⟩
    · by_cases h : 30 < get_result_count env (F1 fn)
      · rw [if_pos h] at hg
        exact ⟨fn, hfn, Or.inr ⟨h, hg⟩⟩
      · rw [if_neg h] at hg
        cases hg
  · rintro ⟨fn, hfn, (rfl | ⟨h, hg⟩)⟩
    · exact ⟨fn, hfn, Or.inl rfl⟩
    · refine ⟨fn, hfn, Or.inr ?_⟩
      rw [if_pos h]
      exact hg

lemma mem_trace_F1 {cfg : ScraperConfig} {env : SearchEnv} {a : String} :
    F1 a ∈ (search_phase cfg env).trace ↔ a ∈ ALPHABETS := by
  rw [search_phase_trace, mem_f_trace]
  constructor
  · rintro ⟨fn, hfn, (heq | ⟨_, hg⟩)⟩
    · obtain rfl : a = fn := by simpa [F1] using heq
      exact hfn
    · exfalso
      rcases mem_l_trace.mp hg with ⟨ln, _, (heq | ⟨_, mn, _, heq⟩)⟩ <;>
        simp [F1, F2, F3] at heq
  · intro ha
    exact ⟨a, ha, Or.inl rfl⟩

lemma mem_trace_F2 {cfg : ScraperConfig} {env : SearchEnv} {a b : String} :
    F2 a b ∈ (search_phase cfg env).trace ↔
      a ∈ ALPHABETS ∧ b ∈ ALPHABETS ∧ 30 < get_result_count env (F1 a) := by
  rw [search_phase_trace, mem_f_trace]
  constructor
  · rintro ⟨fn, hfn, (heq | ⟨h, hg⟩)⟩
    · simp [F1, F2] at heq
    · rcases mem_l_trace.mp hg with ⟨ln, hln, (heq | ⟨_, mn, _, heq⟩)⟩
      · obtain ⟨rfl, rfl⟩ : a = fn ∧ b = ln := by simpa [F2] using heq
        exact ⟨hfn, hln, h⟩
      · simp [F2, F3] at heq
  · rintro ⟨ha, hb, h⟩
    exact ⟨a, ha, Or.inr ⟨h, mem_l_trace.mpr ⟨b, hb, Or.inl rfl⟩⟩⟩

lemma mem_trace_F3 {cfg : ScraperConfig} {env : SearchEnv} {a b c : String} :
    F3 a b c ∈ (search_phase cfg env).trace ↔
      a ∈ ALPHABETS ∧ b ∈ ALPHABETS ∧ c ∈ ALPHABETS ∧
        30 < get_result_count env (F1 a) ∧
        30 < get_result_count env (F2 a b) := by
  rw [search_phase_trace, mem_f_trace]
  constructor
  · rintro ⟨fn, hfn, (heq | ⟨h, hg⟩)⟩
    · simp [F1, F3] at heq
    · rcases mem_l_trace.mp hg with ⟨ln, hln, (heq | ⟨h2, mn, hmn, heq⟩)⟩
      · simp [F2, F3] at heq
      · obtain ⟨rfl, rfl, rfl⟩ : a = fn ∧ b = ln ∧ c = mn := by simpa [F3] using heq
        exact ⟨hfn, hln, hmn, h, h2⟩
  · rintro ⟨ha, hb, hcc, h1, h2⟩
    exact ⟨a, ha, Or.inr ⟨h1, mem_l_trace.mpr ⟨b, hb, Or.inr ⟨h2, c, hcc, rfl⟩⟩⟩⟩

lemma trace_shapes {cfg : ScraperConfig} {env : SearchEnv} {g : Filters}
    (hg : g ∈ (search_phase cfg env).trace) :
    (∃ a, a ∈ ALPHABETS ∧ g = F1 a) ∨
    (∃ a b, a ∈ ALPHABETS ∧ b ∈ ALPHABETS ∧ g = F2 a b ∧
      30 < get_result_count env (F1 a)) ∨
    (∃ a b c, a ∈ ALPHABETS ∧ b ∈ ALPHABETS ∧ c ∈ ALPHABETS ∧ g = F3 a b c ∧
      30 < get_result_count env (F1 a) ∧ 30 < get_result_count env (F2 a b)) := by
  rw [search_phase_trace, mem_f_trace] at hg
  rcases hg with ⟨fn, hfn, (rfl | ⟨h, hg⟩)⟩
  · exact Or.inl ⟨fn, hfn, rfl⟩
  · rcases mem_l_trace.mp hg with ⟨ln, hln, (rfl | ⟨h2, mn, hmn, rfl⟩)⟩
    · exact Or.inr (Or.inl ⟨fn, ln, hfn, hln, rfl, h⟩)
    · exact Or.inr (Or.inr ⟨fn, ln, mn, hfn, hln, hmn, rfl, h, h2⟩)

/-- The central pruning property shared by several claims: a traced query
whose count is at most the threshold is never refined — no strictly more
refined query appears anywhere in the trace. -/
lemma no_refine (cfg : ScraperConfig) (env : SearchEnv) {f g : Filters}
    (hf : f ∈ (search_phase cfg env).trace)
    (hc : get_result_count env f ≤ 30)
    (hg : g ∈ (search_phase cfg env).trace) :
    ¬ Refines g f := by
  rintro ⟨h1, h2, h3, hne⟩
  rcases trace_shapes hf with ⟨a, _, rfl⟩ | ⟨a, b, _, _, rfl, haf⟩ |
    ⟨a, b, c, _, _, _, rfl, haf, hbf⟩
  · rcases trace_shapes hg with ⟨x, _, rfl⟩ | ⟨x, y, _, _, rfl, hag⟩ |
      ⟨x, y, z, _, _, _, rfl, hag, hbg⟩
    · simp only [F1, FieldLe] at h1
      rcases h1 with h1 | h1
      · exact Option.noConfusion h1
      · obtain rfl : a = x := Option.some.inj h1
        exact hne rfl
    · simp only [F1, F2, FieldLe] at h1
      rcases h1 with h1 | h1
      · exact Option.noConfusion h1
      · obtain rfl : a = x := Option.some.inj h1
        omega
    · simp only [F1, F3, FieldLe] at h1
      rcases h1 with h1 | h1
      · exact Option.noConfusion h1
      · obtain rfl : a = x := Option.some.inj h1
        omega
  · rcases trace_shapes hg with ⟨x, _, rfl⟩ | ⟨x, y, _, _, rfl, hag⟩ |
      ⟨x, y, z, _, _, _, rfl, hag, hbg⟩
    · simp only [F1, F2, FieldLe] at h2
      rcases h2 with h2 | h2 <;> exact Option.noConfusion h2
    · simp only [F2, FieldLe] at h1 h2
      rcases h1 with h1 | h1
      · exact Option.noConfusion h1
      · rcases h2 with h2 | h2
        · exact Option.noConfusion h2
        · obtain rfl : a = x := Option.some.inj h1
          obtain rfl : b = y := Option.some.inj h2
          exact hne rfl
    · simp only [F2, F3, FieldLe] at h1 h2
      rcases h1 with h1 | h1
      · exact Option.noConfusion h1
      · rcases h2 with h2 | h2
        · exact Option.noConfusion h2
        · obtain rfl : a = x := Option.some.inj h1
          obtain rfl : b = y := Option.some.inj h2
          omega
  · rcases trace_shapes hg with ⟨x, _, rfl⟩ | ⟨x, y, _, _, rfl, hag⟩ |
      ⟨x, y, z, _, _, _, rfl, hag, hbg⟩
    · simp only [F1, F3, FieldLe] at h3
      rcases h3 with h3 | h3 <;> exact Option.noConfusion h3
    · simp only [F2, F3, FieldLe] at h3
      rcases h3 with h3 | h3 <;> exact Option.noConfusion h3
    · simp only [F3, FieldLe] at h1 h2 h3
      rcases h1 with h1 | h1
      · exact Option.noConfusion h1
      · rcases h2 with h2 | h2
        · exact Option.noConfusion h2
        · rcases h3 with h3 | h3
          · exact Option.noConfusion h3
          · obtain rfl : a = x := Option.some.inj h1
            obtain rfl : b = y := Option.some.inj h2
            obtain rfl : c = z := Option.some.inj h3
            exact hne rfl

/-! ## Lemmas: filtering the trace for child queries -/

lemma filter_flatMap (l : List α) (f : α → List β) (p : β → Bool) :
    (l.flatMap f).filter p = l.flatMap fun a => (f a).filter p := by
  induction l with
  | nil => rfl
  | cons a t ih => simp [List.flatMap_cons, List.filter_append, ih]

lemma flatMap_eq_of_single {a : α} {l : List α} {f : α → List β}
    (hnd : l.Nodup) (ha : a ∈ l) (h : ∀ b ∈ l, b ≠ a → f b = []) :
    l.flatMap f = f a := by
  induction l with
  | nil => cases ha
  | cons x t ih =>
    rcases List.mem_cons.mp ha with rfl | hat
    · have ht : t.flatMap f = [] := by
        rw [List.flatMap_eq_nil_iff]
        intro b hb
        exact h b (List.mem_cons_of_mem _ hb)
          (fun hba => (List.nodup_cons.mp hnd).1 (hba ▸ hb))
      simp [List.flatMap_cons, ht]
    · have hx : f x = [] := h x (List.mem_cons_self x t) (by
        rintro rfl
        exact (List.nodup_cons.mp hnd).1 hat)
      rw [List.flatMap_cons, hx, List.nil_append]
      exact ih (List.nodup_cons.mp hnd).2 hat
        (fun b hb hba => h b (List.mem_cons_of_mem _ hb) hba)

lemma flatMap_singleton_map (l : List α) (f : α → β) :
    (l.flatMap fun x => [f x]) = l.map f := by
  induction l with
  | nil => rfl
  | cons a t ih => simp [List.flatMap_cons, ih]

lemma alphabets_nodup : ALPHABETS.Nodup := by decide

lemma is_child_F1_iff {a : String} {g : Filters} :
    is_child (F1 a) g = true ↔ ∃ y, g = F2 a y := by
  constructor
  · intro h
    rcases g with ⟨gf, gl, gm⟩
    simp only [is_child, F1, Bool.and_eq_true, beq_iff_eq,
      Option.isSome_iff_exists] at h
    obtain ⟨⟨hf, y, hl⟩, hm⟩ := h
    subst hf hl hm
    exact ⟨y, rfl⟩
  · rintro ⟨y, rfl⟩
    simp [is_child, F1, F2]

lemma is_child_F2_iff {a b : String} {g : Filters} :
    is_child (F2 a b) g = true ↔ ∃ z, g = F3 a b z := by
  constructor
  · intro h
    rcases g with ⟨gf, gl, gm⟩
    simp only [is_child, F2, Bool.and_eq_true, beq_iff_eq,
      Option.isSome_iff_exists] at h
    obtain ⟨⟨hf, hl⟩, z, hm⟩ := h
    subst hf hl hm
    exact ⟨z, rfl⟩
  · rintro ⟨z, rfl⟩
    simp [is_child, F2, F3]

lemma c4_filter_F1 (cfg : ScraperConfig) (env : SearchEnv) {a : String}
    (ha : a ∈ ALPHABETS) (hc : 30 < get_result_count env (F1 a)) :
    (search_phase cfg env).trace.filter (is_child (F1 a)) =
      ALPHABETS.map (F2 a) := by
  rw [search_phase_trace, f_trace, filter_flatMap,
    flatMap_eq_of_single alphabets_nodup ha]
  · rw [List.filter_cons_of_neg, if_pos hc, l_trace, filter_flatMap]
    · rw [show (fun ln => ((F2 a ln ::
          (if 30 < get_result_count env (F2 a ln)
           then ALPHABETS.map (F3 a ln) else [])).filter (is_child (F1 a)))) =
          (fun ln => [F2 a ln]) from ?_, flatMap_singleton_map]
      funext ln
      rw [List.filter_cons_of_pos (by rw [is_child_F1_iff]; exact ⟨ln, rfl⟩)]
      rw [apply_ite (List.filter (is_child (F1 a)))]
      rw [List.filter_eq_nil_iff.mpr ?_, List.filter_nil, ite_self]
      intro x hx
      rcases List.mem_map.mp hx with ⟨mn, _, rfl⟩
      rw [is_child_F1_iff]
      rintro ⟨y, heq⟩
      simp [F2, F3] at heq
    · rw [is_child_F1_iff]
      rintro ⟨y, heq⟩
      simp [F1, F2] at heq
  · intro fn _ hfn
    rw [List.filter_eq_nil_iff]
    intro x hx
    rcases List.mem_cons.mp hx with rfl | hx
    · rw [is_child_F1_iff]
      rintro ⟨y, heq⟩
      simp [F1, F2] at heq
    · have hx' : x ∈ l_trace env fn ALPHABETS := by
        by_cases h : 30 < get_result_count env (F1 fn)
        · rwa [if_pos h] at hx
        · rw [if_neg h] at hx
          cases hx
      rcases mem_l_trace.mp hx' with ⟨ln, _, (rfl | ⟨_, mn, _, rfl⟩)⟩
      · rw [is_child_F1_iff]
        rintro ⟨y, heq⟩
        obtain ⟨rfl, -⟩ : fn = a ∧ ln = y := by simpa [F2] using heq
        exact hfn rfl
      · rw [is_child_F1_iff]
        rintro ⟨y, heq⟩
        simp [F2, F3] at heq

lemma c4_filter_F2 (cfg : ScraperConfig) (env : SearchEnv) {a b : String}
    (hmem : F2 a b ∈ (search_phase cfg env).trace)
    (hc : 30 < get_result_count env (F2 a b)) :
    (search_phase cfg env).trace.filter (is_child (F2 a b)) =
      ALPHABETS.map (F3 a b) := by
  obtain ⟨ha, hb, h1⟩ := mem_trace_F2.mp hmem
  rw [search_phase_trace, f_trace, filter_flatMap,
    flatMap_eq_of_single alphabets_nodup ha]
  · rw [List.filter_cons_of_neg, if_pos h1, l_trace, filter_flatMap,
      flatMap_eq_of_single alphabets_nodup hb]
    · rw [List.filter_cons_of_neg, if_pos hc]
      · rw [List.filter_eq_self.mpr]
        intro x hx
        rcases List.mem_map.mp hx with ⟨mn, _, rfl⟩
        rw [is_child_F2_iff]
        exact ⟨mn, rfl⟩
      · rw [is_child_F2_iff]
        rintro ⟨z, heq⟩
        simp [F2, F3] at heq
    · intro ln _ hln
      rw [List.filter_eq_nil_iff]
      intro x hx
      rcases List.mem_cons.mp hx with rfl | hx
      · rw [is_child_F2_iff]
        rintro ⟨z, heq⟩
        simp [F2, F3] at heq
      · have hx' : x ∈ ALPHABETS.map (F3 a ln) := by
          by_cases h : 30 < get_result_count env (F2 a ln)
          · rwa [if_pos h] at hx
          · rw [if_neg h] at hx
            cases hx
        rcases List.mem_map.mp hx' with ⟨mn, _, rfl⟩
        rw [is_child_F2_iff]
        rintro ⟨z, heq⟩
        obtain ⟨-, rfl, -⟩ : a = a ∧ ln = b ∧ mn = z := by simpa [F3] using heq
        exact hln rfl
    · rw [is_child_F2_iff]
      rintro ⟨z, heq⟩
      simp [F1, F3] at heq
  · intro fn _ hfn
    rw [List.filter_eq_nil_iff]
    intro x hx
    rcases List.mem_cons.mp hx with rfl | hx
    · rw [is_child_F2_iff]
      rintro ⟨z, heq⟩
      simp [F1, F3] at heq
    · have hx' : x ∈ l_trace env fn ALPHABETS := by
        by_cases h : 30 < get_result_count env (F1 fn)
        · rwa [if_pos h] at hx
        · rw [if_neg h] at hx
          cases hx
      rcases mem_l_trace.mp hx' with ⟨ln, _, (rfl | ⟨_, mn, _, rfl⟩)⟩
      · rw [is_child_F2_iff]
        rintro ⟨z, heq⟩
        simp [F2, F3] at heq
      · rw [is_child_F2_iff]
        rintro ⟨z, heq⟩
        obtain ⟨rfl, -⟩ : fn = a ∧ ln = b ∧ mn = z := by simpa [F3] using heq
        exact hfn rfl

/-! ## Lemmas: the profile phase -/

lemma scrape_profile_keys {env : ProfileEnv} {url : String} {d : PyRecord}
    (h : scrape_profile env url = .ok d) : dict_keys d = record_keys := by
  unfold scrape_profile safe_text at h
  repeat' split at h
  all_goals try exact Except.noConfusion h
  obtain rfl := Except.ok.inj h
  rfl

lemma profile_step_ok_visited {env : ProfileEnv} {st : ProfileState}
    {u : String} {s : ProfileState} (h : profile_step env st u = .ok s) :
    s.visited = st.visited ++ [u] := by
  unfold profile_step at h
  repeat' split at h
  all_goals try exact Except.noConfusion h
  all_goals obtain rfl := Except.ok.inj h
  all_goals rfl

lemma profile_step_keys {env : ProfileEnv} {st : ProfileState} {u : String}
    {s : ProfileState} (h : profile_step env st u = .ok s)
    (hst : ∀ d ∈ st.results, dict_keys d = record_keys) :
    ∀ d ∈ s.results, dict_keys d = record_keys := by
  unfold profile_step at h
  cases hg : env.goto u with
  | none =>
    rw [hg] at h
    cases hs : scrape_profile env u with
    | ok data =>
      rw [hs] at h
      obtain rfl := Except.ok.inj h
      intro d hd
      rcases List.mem_append.mp hd with hd | hd
      · exact hst d hd
      · rcases List.mem_singleton.mp hd with rfl
        exact scrape_profile_keys hs
    | error e =>
      rw [hs] at h
      cases e with
      | timeout =>
        obtain rfl := Except.ok.inj h
        exact hst
      | other m => exact Except.noConfusion h
  | some e =>
    rw [hg] at h
    cases e with
    | timeout =>
      obtain rfl := Except.ok.inj h
      exact hst
    | other m => exact Except.noConfusion h

lemma profile_loop_results_irrel (env : ProfileEnv) (us : List String)
    (r : List PyRecord) (v1 v2 : List String) :
    (profile_loop env us ⟨v1, r⟩).map ProfileState.results
      = (profile_loop env us ⟨v2, r⟩).map ProfileState.results := by
  induction us generalizing r v1 v2 with
  | nil => rfl
  | cons u rest ih =>
    simp only [profile_loop, profile_step]
    cases hg : env.goto u with
    | none =>
      cases hs : scrape_profile env u with
      | ok d => exact ih (r ++ [d]) _ _
      | error e =>
        cases e with
        | timeout => exact ih r _ _
        | other m => rfl
    | some e =>
      cases e with
      | timeout => exact ih r _ _
      | other m => rfl

lemma profile_loop_skip (env : ProfileEnv) {u : String}
    (h : env.goto u = some .timeout) (us2 : List String) :
    ∀ (us1 : List String) (st : ProfileState),
      (profile_loop env (us1 ++ u :: us2) st).map ProfileState.results
        = (profile_loop env (us1 ++ us2) st).map ProfileState.results := by
  intro us1
  induction us1 with
  | nil =>
    intro st
    obtain ⟨v, r⟩ := st
    simp only [List.nil_append, profile_loop, profile_step, h]
    exact profile_loop_results_irrel env us2 r (v ++ [u]) v
  | cons w rest ih =>
    intro st
    simp only [List.cons_append, profile_loop]
    cases hs : profile_step env st w with
    | ok st' => exact ih st'
    | error e => rfl

lemma profile_loop_ok_visited (env : ProfileEnv) :
    ∀ (us : List String) (st st' : ProfileState),
      profile_loop env us st = .ok st' → st'.visited = st.visited ++ us := by
  intro us
  induction us with
  | nil =>
    intro st st' h
    obtain rfl := Except.ok.inj h
    simp
  | cons u rest ih =>
    intro st st' h
    simp only [profile_loop] at h
    cases hs : profile_step env st u with
    | error e =>
      rw [hs] at h
      exact Except.noConfusion h
    | ok s =>
      rw [hs] at h
      rw [ih s st' h, profile_step_ok_visited hs]
      simp

lemma profile_loop_keys (env : ProfileEnv) :
    ∀ (us : List String) (st st' : ProfileState),
      (∀ d ∈ st.results, dict_keys d = record_keys) →
      profile_loop env us st = .ok st' →
      ∀ d ∈ st'.results, dict_keys d = record_keys := by
  intro us
  induction us with
  | nil =>
    intro st st' hst h
    obtain rfl := Except.ok.inj h
    exact hst
  | cons u rest ih =>
    intro st st' hst h
    simp only [profile_loop] at h
    cases hs : profile_step env st u with
    | error e =>
      rw [hs] at h
      exact Except.noConfusion h
    | ok s =>
      rw [hs] at h
      exact ih s st' (profile_step_keys hs hst) h

lemma profile_phase_results_keys {env : ProfileEnv} {urls : List String}
    {st : ProfileState} (h : profile_phase env urls = .ok st) :
    ∀ d ∈ st.results, dict_keys d = record_keys :=
  profile_loop_keys env urls ⟨[], []⟩ st (by simp) h

lemma profile_phase_visited {env : ProfileEnv} {urls : List String}
    {st : ProfileState} (h : profile_phase env urls = .ok st) :
    st.visited = urls := by
  simpa using profile_loop_ok_visited env urls ⟨[], []⟩ st h

/-! ## Lemmas: the writer -/

lemma dict_to_row_ok {fn : List String} {d : PyRecord} (h : dict_keys d = fn) :
    dict_to_row fn d = .ok (fn.map fun k => (py_get d k).getD "") := by
  have hany : d.any (fun kv => !(fn.contains kv.1)) = false := by
    rw [List.any_eq_false]
    intro kv hkv
    simp only [Bool.not_eq_true', Bool.not_eq_false]
    rw [List.elem_iff]
    rw [← h]
    exact List.mem_map_of_mem _ hkv
  unfold dict_to_row
  rw [hany]
  rfl

lemma write_rows_ok {fn : List String} (l : List PyRecord)
    (h : ∀ d ∈ l, dict_keys d = fn) :
    write_rows fn l =
      .ok (l.map fun d => fn.map fun k => (py_get d k).getD "") := by
  induction l with
  | nil => rfl
  | cons d rest ih =>
    have h1 := dict_to_row_ok (h d (List.mem_cons_self d rest))
    have h2 := ih fun e he => h e (List.mem_cons_of_mem _ he)
    simp [write_rows, h1, h2]

lemma save_csv_cons {first : PyRecord} {rest : List PyRecord}
    (h : ∀ d ∈ first :: rest, dict_keys d = dict_keys first) :
    save_csv (first :: rest) = .ok (some (dict_keys first ::
      (first :: rest).map fun d =>
        (dict_keys first).map fun k => (py_get d k).getD "")) := by
  have hw := write_rows_ok (first :: rest) h
  simp [save_csv, hw]

/-! ## Claim theorems -/

set_option maxRecDepth 10000

/-- Nothing can strictly refine a depth-3 query: all three filter slots are
already set, so agreeing on them forces equality. -/
lemma refines_F3_false {a b c : String} {g : Filters}
    (h : Refines g (F3 a b c)) : False := by
  obtain ⟨h1, h2, h3, hne⟩ := h
  obtain ⟨gf, gl, gm⟩ := g
  simp only [F3, FieldLe] at h1 h2 h3
  apply hne
  rcases h1 with h1 | rfl
  · exact Option.noConfusion h1
  rcases h2 with h2 | rfl
  · exact Option.noConfusion h2
  rcases h3 with h3 | rfl
  · exact Option.noConfusion h3
  rfl

/-- **C1 (counterexample).** In `envDeep` the enumerator reaches the depth-3
query `fname=A, lname=A, mname=A`; its result page carries a certificate
reference and its parsed count is 31 > T, and the reference is NOT in the
final collected set: `perform_search` skips collection whenever the count
exceeds 30, also at depth 3, so the claim as stated is false of the code. -/
theorem c1_depth3_counterexample :
    F3 "A" "A" "A" ∈ (search_phase default_config envDeep).trace ∧
    30 < get_result_count envDeep (F3 "A" "A" "A") ∧
    "https://moms.mn.gov//Certificate/99" ∈
      extract_profile_urls envDeep (F3 "A" "A" "A") ∧
    "https://moms.mn.gov//Certificate/99" ∉
      (search_phase default_config envDeep).profile_urls := by
  decide

/-- **C1 (amended).** At refinement depth 3 the enumerator never refines
further (no traced query strictly refines a depth-3 query), but collection
is not unconditional: a depth-3 query's page references are collected when
its count is at most T = 30, and every collected reference stems from some
traced query with count at most T — so a depth-3 page whose count exceeds T
has its references skipped unless another low-count query surfaces them. -/
theorem c1_depth3_no_branching (cfg : ScraperConfig) (env : SearchEnv)
    (a b c : String) (h3 : F3 a b c ∈ (search_phase cfg env).trace) :
    (∀ g ∈ (search_phase cfg env).trace, ¬ Refines g (F3 a b c)) ∧
    (get_result_count env (F3 a b c) ≤ 30 →
      ∀ u ∈ extract_profile_urls env (F3 a b c),
        u ∈ (search_phase cfg env).profile_urls) ∧
    (∀ u ∈ (search_phase cfg env).profile_urls,
      ∃ f ∈ (search_phase cfg env).trace,
        get_result_count env f ≤ 30 ∧ u ∈ extract_profile_urls env f) := by
  refine ⟨fun g _ hr => refines_F3_false hr, fun hc u hu => ?_, fun u hu => ?_⟩
  · exact (search_phase_urls cfg env u).mpr ⟨F3 a b c, h3, hc, hu⟩
  · exact (search_phase_urls cfg env u).mp hu

/-- Witness for `c1_depth3_no_branching` at the concrete environment
`envDeep`. -/
theorem c1_depth3_no_branching_witness :
    (F3 "A" "A" "A" ∈ (search_phase default_config envDeep).trace) ∧
    ((∀ g ∈ (search_phase default_config envDeep).trace,
        ¬ Refines g (F3 "A" "A" "A")) ∧
     (get_result_count envDeep (F3 "A" "A" "A") ≤ 30 →
       ∀ u ∈ extract_profile_urls envDeep (F3 "A" "A" "A"),
         u ∈ (search_phase default_config envDeep).profile_urls) ∧
     (∀ u ∈ (search_phase default_config envDeep).profile_urls,
       ∃ f ∈ (search_phase default_config envDeep).trace,
         get_result_count envDeep f ≤ 30 ∧
           u ∈ extract_profile_urls envDeep f)) :=
  ⟨by decide,
   c1_depth3_no_branching default_config envDeep "A" "A" "A" (by decide)⟩

/-- **C2 (code bug, evaluated at the failing input).** When awaiting the
`#applicant1` field read raises, `scrape_profile` does NOT degrade the field
to the empty string: the `try/except` inside `safe_text` guards only the
creation of the `inner_text` coroutine, so the exception surfaces at the
caller's `await`.  A `TimeoutError` makes `profile_phase` drop the whole
record (empty result list); any other exception aborts the whole phase. -/
theorem c2_field_failure_drops_record :
    scrape_profile penvFieldTimeout "u" = .error .timeout ∧
    profile_phase penvFieldTimeout ["u"] = .ok ⟨["u"], []⟩ ∧
    scrape_profile penvFieldError "u" = .error (.other "element not found") ∧
    profile_phase penvFieldError ["u"] = .error (.other "element not found") :=
  ⟨rfl, rfl, rfl, rfl⟩

/-- **C3.** For every query issued by the enumerator whose parsed result
count is at most T = 30, all profile references extractable from that
query's result page are added to the collected reference set, and no deeper
(more refined) query is ever issued on that branch. -/
theorem c3_low_count_collects_and_prunes (cfg : ScraperConfig)
    (env : SearchEnv) (f : Filters)
    (hf : f ∈ (search_phase cfg env).trace)
    (hc : get_result_count env f ≤ 30) :
    (∀ u ∈ extract_profile_urls env f,
        u ∈ (search_phase cfg env).profile_urls) ∧
    (∀ g ∈ (search_phase cfg env).trace, ¬ Refines g f) := by
  constructor
  · intro u hu
    exact (search_phase_urls cfg env u).mpr ⟨f, hf, hc, hu⟩
  · intro g hg
    exact no_refine cfg env hf hc hg

/-- Witness for `c3_low_count_collects_and_prunes` on `envFlat`, where
`fname=A` parses no count (0 ≤ 30) and its page has one certificate link. -/
theorem c3_low_count_collects_and_prunes_witness :
    (F1 "A" ∈ (search_phase default_config envFlat).trace) ∧
    (get_result_count envFlat (F1 "A") ≤ 30) ∧
    ((∀ u ∈ extract_profile_urls envFlat (F1 "A"),
        u ∈ (search_phase default_config envFlat).profile_urls) ∧
     (∀ g ∈ (search_phase default_config envFlat).trace,
        ¬ Refines g (F1 "A"))) :=
  ⟨by decide, by decide,
   c3_low_count_collects_and_prunes default_config envFlat (F1 "A")
     (by decide) (by decide)⟩

/-- **C4.** A traced query at depth 1 or 2 (middle-name slot still unset)
whose count exceeds T = 30 has exactly 26 children in the trace at the next
refinement level — one per letter, each extending the parent by that letter
in the next name slot. -/
theorem c4_overflow_spawns_26_children (cfg : ScraperConfig)
    (env : SearchEnv) (p : Filters)
    (hp : p ∈ (search_phase cfg env).trace) (hd : p.mname = none)
    (hc : 30 < get_result_count env p) :
    (search_phase cfg env).trace.filter (is_child p) =
      ALPHABETS.map (next_child p) ∧
    ((search_phase cfg env).trace.filter (is_child p)).length = 26 := by
  have hmain : (search_phase cfg env).trace.filter (is_child p) =
      ALPHABETS.map (next_child p) := by
    rcases trace_shapes hp with ⟨a, ha, rfl⟩ | ⟨a, b, _, _, rfl, _⟩ |
      ⟨a, b, c, _, _, _, rfl, _, _⟩
    · rw [c4_filter_F1 cfg env ha hc]
      rfl
    · rw [c4_filter_F2 cfg env hp hc]
      rfl
    · simp [F3] at hd
  refine ⟨hmain, ?_⟩
  rw [hmain, List.length_map]
  rfl

/-- Witness for `c4_overflow_spawns_26_children` on the spec scenario
`envFan` (`fname=A` returns 45 results). -/
theorem c4_overflow_spawns_26_children_witness :
    (F1 "A" ∈ (search_phase default_config envFan).trace) ∧
    ((F1 "A").mname = none) ∧
    (30 < get_result_count envFan (F1 "A")) ∧
    ((search_phase default_config envFan).trace.filter (is_child (F1 "A")) =
      ALPHABETS.map (next_child (F1 "A")) ∧
     ((search_phase default_config envFan).trace.filter
        (is_child (F1 "A"))).length = 26) :=
  ⟨by decide, rfl, by decide,
   c4_overflow_spawns_26_children default_config envFan (F1 "A")
     (by decide) rfl (by decide)⟩

/-- **C5.** The collected reference set holds no duplicates: a url
discovered by two distinct low-count queries appears exactly once in the
final set, and any completed collector run over that set visits it exactly
once. -/
theorem c5_dedup_unique_visit (cfg : ScraperConfig) (env : SearchEnv)
    (u : String) (f g : Filters)
    (hf : f ∈ (search_phase cfg env).trace)
    (hg : g ∈ (search_phase cfg env).trace)
    (hfg : f ≠ g)
    (hcf : get_result_count env f ≤ 30)
    (hcg : get_result_count env g ≤ 30)
    (huf : u ∈ extract_profile_urls env f)
    (hug : u ∈ extract_profile_urls env g) :
    (search_phase cfg env).profile_urls.count u = 1 ∧
    (∀ (penv : ProfileEnv) (st : ProfileState),
      profile_phase penv (search_phase cfg env).profile_urls = .ok st →
        st.visited.count u = 1) := by
  have hmem : u ∈ (search_phase cfg env).profile_urls :=
    (search_phase_urls cfg env u).mpr ⟨f, hf, hcf, huf⟩
  have hone : (search_phase cfg env).profile_urls.count u = 1 :=
    List.count_eq_one_of_mem (search_phase_nodup cfg env) hmem
  refine ⟨hone, fun penv st h => ?_⟩
  rw [profile_phase_visited h]
  exact hone

/-- Witness for `c5_dedup_unique_visit` on `envFlat`, where the queries
`fname=A` and `fname=B` both surface `/Certificate/12345`. -/
theorem c5_dedup_unique_visit_witness :
    (F1 "A" ∈ (search_phase default_config envFlat).trace) ∧
    (F1 "B" ∈ (search_phase default_config envFlat).trace) ∧
    (F1 "A" ≠ F1 "B") ∧
    ("https://moms.mn.gov//Certificate/12345" ∈
      extract_profile_urls envFlat (F1 "A")) ∧
    ((search_phase default_config envFlat).profile_urls.count
        "https://moms.mn.gov//Certificate/12345" = 1 ∧
     (∀ (penv : ProfileEnv) (st : ProfileState),
       profile_phase penv (search_phase default_config envFlat).profile_urls
           = .ok st →
         st.visited.count "https://moms.mn.gov//Certificate/12345" = 1)) :=
  ⟨by decide, by decide, by decide, by decide,
   c5_dedup_unique_visit default_config envFlat
     "https://moms.mn.gov//Certificate/12345" (F1 "A") (F1 "B")
     (by decide) (by decide) (by decide) (by decide) (by decide)
     (by decide) (by decide)⟩

/-- **C6.** A navigation timeout on one reference skips exactly that
reference: the produced record list is the one of the run without it, and a
completed run still visits every reference of the sequence (including the
timed-out one, which is attempted but contributes nothing — no retry). -/
theorem c6_timeout_skips_only_that_reference (env : ProfileEnv) (u : String)
    (us1 us2 : List String) (h : env.goto u = some .timeout) :
    ((profile_phase env (us1 ++ u :: us2)).map ProfileState.results
      = (profile_phase env (us1 ++ us2)).map ProfileState.results) ∧
    (∀ st, profile_phase env (us1 ++ u :: us2) = .ok st →
      st.visited = us1 ++ u :: us2) := by
  constructor
  · exact profile_loop_skip env h us2 us1 ⟨[], []⟩
  · intro st hst
    exact profile_phase_visited hst

/-- Witness for `c6_timeout_skips_only_that_reference` on `penvTimeout`
(reference `"t"` times out between `"a"` and `"b"`). -/
theorem c6_timeout_skips_only_that_reference_witness :
    (penvTimeout.goto "t" = some .timeout) ∧
    (((profile_phase penvTimeout (["a"] ++ "t" :: ["b"])).map
        ProfileState.results
      = (profile_phase penvTimeout (["a"] ++ ["b"])).map
          ProfileState.results) ∧
     (∀ st, profile_phase penvTimeout (["a"] ++ "t" :: ["b"]) = .ok st →
       st.visited = ["a"] ++ "t" :: ["b"])) :=
  ⟨by decide,
   c6_timeout_skips_only_that_reference penvTimeout "t" ["a"] ["b"]
     (by decide)⟩

/-- **C7.** If the result count cannot be parsed (the body read fails, or no
`(\d+) results?` pattern occurs in it), `get_result_count` returns 0 without
raising; 0 ≤ T, so `perform_search` collects that page's references
directly, and the branch is never refined. -/
theorem c7_parse_failure_collects_silently (cfg : ScraperConfig)
    (env : SearchEnv) (st : ScrapeState) (f : Filters)
    (h : ∀ t, env.body_text f = .ok t → find_count t = none) :
    get_result_count env f = 0 ∧
    (∀ u ∈ extract_profile_urls env f,
      u ∈ ((perform_search env st f).2).profile_urls) ∧
    (f ∈ (search_phase cfg env).trace →
      ∀ g ∈ (search_phase cfg env).trace, ¬ Refines g f) := by
  have h0 : get_result_count env f = 0 := by
    unfold get_result_count
    cases ht : env.body_text f with
    | error e => rfl
    | ok t => simp [h t ht]
  refine ⟨h0, fun u hu => ?_, fun hf g hg => ?_⟩
  · rw [perform_search_urls]
    exact Or.inr ⟨by omega, hu⟩
  · exact no_refine cfg env hf (by omega) hg

/-- Witness for `c7_parse_failure_collects_silently`: in `envFlat` every
body text is empty, so no count parses anywhere. -/
theorem c7_parse_failure_collects_silently_witness :
    (∀ t, envFlat.body_text (F1 "A") = .ok t → find_count t = none) ∧
    (get_result_count envFlat (F1 "A") = 0 ∧
     (∀ u ∈ extract_profile_urls envFlat (F1 "A"),
       u ∈ ((perform_search envFlat ⟨[], []⟩ (F1 "A")).2).profile_urls) ∧
     (F1 "A" ∈ (search_phase default_config envFlat).trace →
       ∀ g ∈ (search_phase default_config envFlat).trace,
         ¬ Refines g (F1 "A"))) :=
  ⟨fun t ht => by
     obtain rfl := Except.ok.inj ht
     decide,
   c7_parse_failure_collects_silently default_config envFlat ⟨[], []⟩
     (F1 "A") (fun t ht => by
       obtain rfl := Except.ok.inj ht
       decide)⟩

/-- **C8.** The writer's contract on any record list produced by a completed
collector run: an empty list yields a warning and no write (`.ok none`,
never a raised exception), and a non-empty list yields exactly one header
row in the key order of the first record followed by one row per record in
collection order. -/
theorem c8_writer_contract (penv : ProfileEnv) (urls : List String)
    (st : ProfileState) (h : profile_phase penv urls = .ok st) :
    (st.results = [] → save_csv st.results = .ok none) ∧
    (∀ first rest, st.results = first :: rest →
      save_csv st.results = .ok (some (dict_keys first ::
        st.results.map fun d =>
          (dict_keys first).map fun k => (py_get d k).getD ""))) := by
  constructor
  · intro he
    rw [he]
    rfl
  · intro first rest he
    have hkeys := profile_phase_results_keys h
    have hfirst : dict_keys first = record_keys :=
      hkeys first (by rw [he]; exact List.mem_cons_self first rest)
    rw [he]
    exact save_csv_cons fun d hd => by
      rw [hkeys d (by rw [he]; exact hd), hfirst]

/-- Witness for `c8_writer_contract` on a one-element run of `penvOk`. -/
theorem c8_writer_contract_witness :
    (profile_phase penvOk ["u"] = .ok ⟨["u"],
      [[("Applicant 1", "x"), ("Applicant 2", "x"),
        ("Certificate Number", "x"), ("Date Filed", "x"),
        ("County", "x"), ("Profile URL", "u")]]⟩) ∧
    (((⟨["u"], [[("Applicant 1", "x"), ("Applicant 2", "x"),
        ("Certificate Number", "x"), ("Date Filed", "x"),
        ("County", "x"), ("Profile URL", "u")]]⟩ : ProfileState).results = []
        → save_csv (⟨["u"], [[("Applicant 1", "x"), ("Applicant 2", "x"),
            ("Certificate Number", "x"), ("Date Filed", "x"),
            ("County", "x"), ("Profile URL", "u")]]⟩ :
              ProfileState).results = .ok none) ∧
     (∀ first rest,
        (⟨["u"], [[("Applicant 1", "x"), ("Applicant 2", "x"),
          ("Certificate Number", "x"), ("Date Filed", "x"),
          ("County", "x"), ("Profile URL", "u")]]⟩ :
            ProfileState).results = first :: rest →
        save_csv (⟨["u"], [[("Applicant 1", "x"), ("Applicant 2", "x"),
          ("Certificate Number", "x"), ("Date Filed", "x"),
          ("County", "x"), ("Profile URL", "u")]]⟩ :
            ProfileState).results = .ok (some (dict_keys first ::
          (⟨["u"], [[("Applicant 1", "x"), ("Applicant 2", "x"),
            ("Certificate Number", "x"), ("Date Filed", "x"),
            ("County", "x"), ("Profile URL", "u")]]⟩ :
              ProfileState).results.map fun d =>
            (dict_keys first).map fun k => (py_get d k).getD "")))) :=
  ⟨rfl, c8_writer_contract penvOk ["u"] _ rfl⟩

/-- **C9.** Every record the profile extractor constructs has exactly the
six keys `Applicant 1, Applicant 2, Certificate Number, Date Filed, County,
Profile URL` in this order; hence every record list a completed collector
run hands to the writer is schema-homogeneous, the header row is exactly
this key list, and every record's row aligns with that header order. -/
theorem c9_schema_homogeneity (penv : ProfileEnv) (urls : List String)
    (st : ProfileState) (h : profile_phase penv urls = .ok st) :
    (∀ url d, scrape_profile penv url = .ok d → dict_keys d = record_keys) ∧
    (∀ d ∈ st.results, dict_keys d = record_keys) ∧
    (∀ first rest, st.results = first :: rest →
      save_csv st.results = .ok (some (record_keys ::
        st.results.map fun d =>
          record_keys.map fun k => (py_get d k).getD ""))) := by
  refine ⟨fun url d hd => scrape_profile_keys hd,
    profile_phase_results_keys h, ?_⟩
  intro first rest he
  have hkeys := profile_phase_results_keys h
  have hfirst : dict_keys first = record_keys :=
    hkeys first (by rw [he]; exact List.mem_cons_self first rest)
  rw [he]
  have hcsv := @save_csv_cons first rest
    fun d hd => by rw [hkeys d (by rw [he]; exact hd), hfirst]
  rw [hcsv, hfirst]

/-- Witness for `c9_schema_homogeneity` on a two-element run of `penvOk`. -/
theorem c9_schema_homogeneity_witness :
    (profile_phase penvOk ["u", "v"] = .ok ⟨["u", "v"],
      [[("Applicant 1", "x"), ("Applicant 2", "x"),
        ("Certificate Number", "x"), ("Date Filed", "x"),
        ("County", "x"), ("Profile URL", "u")],
       [("Applicant 1", "x"), ("Applicant 2", "x"),
        ("Certificate Number", "x"), ("Date Filed", "x"),
        ("County", "x"), ("Profile URL", "v")]]⟩) ∧
    ((∀ url d, scrape_profile penvOk url = .ok d →
        dict_keys d = record_keys) ∧
     (∀ d ∈ (⟨["u", "v"],
        [[("Applicant 1", "x"), ("Applicant 2", "x"),
          ("Certificate Number", "x"), ("Date Filed", "x"),
          ("County", "x"), ("Profile URL", "u")],
         [("Applicant 1", "x"), ("Applicant 2", "x"),
          ("Certificate Number", "x"), ("Date Filed", "x"),
          ("County", "x"), ("Profile URL", "v")]]⟩ : ProfileState).results,
        dict_keys d = record_keys) ∧
     (∀ first rest, (⟨["u", "v"],
        [[("Applicant 1", "x"), ("Applicant 2", "x"),
          ("Certificate Number", "x"), ("Date Filed", "x"),
          ("County", "x"), ("Profile URL", "u")],
         [("Applicant 1", "x"), ("Applicant 2", "x"),
          ("Certificate Number", "x"), ("Date Filed", "x"),
          ("County", "x"), ("Profile URL", "v")]]⟩ :
            ProfileState).results = first :: rest →
        save_csv (⟨["u", "v"],
          [[("Applicant 1", "x"), ("Applicant 2", "x"),
            ("Certificate Number", "x"), ("Date Filed", "x"),
            ("County", "x"), ("Profile URL", "u")],
           [("Applicant 1", "x"), ("Applicant 2", "x"),
            ("Certificate Number", "x"), ("Date Filed", "x"),
            ("County", "x"), ("Profile URL", "v")]]⟩ :
              ProfileState).results = .ok (some (record_keys ::
          (⟨["u", "v"],
            [[("Applicant 1", "x"), ("Applicant 2", "x"),
              ("Certificate Number", "x"), ("Date Filed", "x"),
              ("County", "x"), ("Profile URL", "u")],
             [("Applicant 1", "x"), ("Applicant 2", "x"),
              ("Certificate Number", "x"), ("Date Filed", "x"),
              ("County", "x"), ("Profile URL", "v")]]⟩ :
                ProfileState).results.map fun d =>
            record_keys.map fun k => (py_get d k).getD "")))) :=
  ⟨rfl, c9_schema_homogeneity penvOk ["u", "v"] _ rfl⟩

/-- **C10.** The declared state-code configuration is inert: two runs whose
configurations differ only in the state list produce identical search-phase
results (same issued query trace, same collected set), and the form-filling
step performs identical browser actions for every filter set. -/
theorem c10_states_config_inert (s1 s2 : List String) (env : SearchEnv) :
    search_phase ⟨s1⟩ env = search_phase ⟨s2⟩ env ∧
    ∀ f : Filters, fill_search_form ⟨s1⟩ f = fill_search_form ⟨s2⟩ f :=
  ⟨rfl, fun _ => rfl⟩
